import Mathlib

/-!
Verification of the SiaMux stream multiplexer (go.sia.tech/mux) against its
natural-language specification.

The Go source is shallowly embedded: machine integers (uint16, uint32,
uint64) are modelled as `Nat` with explicit `% 2^w` where wrap-around
matters, byte buffers and nonces as `List Nat` (one entry per byte),
durations as `Int` nanoseconds (the representation of Go time.Duration),
and fallible operations as `Option`.  Each definition is translated from
the function of the same name in the source; definitions whose name ends
in `Spec` are instead transcribed from the specification text, for
comparison with the source-derived definition.
-/

/-- Size in bytes of an encoded frame header (source: `frameHeaderSize = 4 + 2 + 2`). -/
def frameHeaderSize : Nat := 4 + 2 + 2

/-- Size in bytes of the AEAD authentication tag (source: `chachaPoly1305TagSize = 16`). -/
def chachaPoly1305TagSize : Nat := 16

/-- `connSettings.maxFrameSize`: `cs.PacketSize - chachaPoly1305TagSize`. -/
def maxFrameSize (packetSize : Nat) : Nat := packetSize - chachaPoly1305TagSize

/-- `connSettings.maxPayloadSize`: `cs.maxFrameSize() - frameHeaderSize`. -/
def maxPayloadSize (packetSize : Nat) : Nat := maxFrameSize packetSize - frameHeaderSize

/-- The `frameHeader` struct: 32-bit stream id, 16-bit payload length, 16-bit flags.
Fields are `Nat`; the uint32/uint16 width is applied at each use, as in the source. -/
structure frameHeader where
  id : Nat
  length : Nat
  flags : Nat
deriving DecidableEq

/-- `binary.LittleEndian.PutUint16`: the two little-endian bytes of a 16-bit value. -/
def putUint16 (v : Nat) : List Nat := [v % 256, v / 256 % 256]

/-- `binary.LittleEndian.PutUint32`: the four little-endian bytes of a 32-bit value. -/
def putUint32 (v : Nat) : List Nat :=
  [v % 256, v / 256 % 256, v / 65536 % 256, v / 16777216 % 256]

/-- `binary.LittleEndian.Uint16`: recombine the first two bytes, little-endian. -/
def getUint16 : List Nat → Nat
  | b0 :: b1 :: _ => b0 + 256 * b1
  | _ => 0

/-- `binary.LittleEndian.Uint32`: recombine the first four bytes, little-endian. -/
def getUint32 : List Nat → Nat
  | b0 :: b1 :: b2 :: b3 :: _ => b0 + 256 * b1 + 65536 * b2 + 16777216 * b3
  | _ => 0

/-- `binary.LittleEndian.Uint64`: recombine the first eight bytes, little-endian. -/
def getUint64 : List Nat → Nat
  | b0 :: b1 :: b2 :: b3 :: b4 :: b5 :: b6 :: b7 :: _ =>
      b0 + 256 * b1 + 65536 * b2 + 16777216 * b3 + 4294967296 * b4 +
        1099511627776 * b5 + 281474976710656 * b6 + 72057594037927936 * b7
  | _ => 0

/-- `binary.LittleEndian.PutUint64`: the eight little-endian bytes of a 64-bit value. -/
def putUint64 (v : Nat) : List Nat :=
  [v % 256, v / 256 % 256, v / 65536 % 256, v / 16777216 % 256,
   v / 4294967296 % 256, v / 1099511627776 % 256, v / 281474976710656 % 256,
   v / 72057594037927936 % 256]

/-- `encodeFrameHeader`: `PutUint32(buf[0:], (h.id<<1)|1); PutUint16(buf[4:], h.length);
PutUint16(buf[6:], h.flags)`.  The shift is computed in uint32 arithmetic, and the
uint16 fields are reduced mod 2^16 as the Go types dictate. -/
def encodeFrameHeader (h : frameHeader) : List Nat :=
  putUint32 ((h.id <<< 1) % 4294967296 ||| 1) ++
    putUint16 (h.length % 65536) ++ putUint16 (h.flags % 65536)

/-- `decodeFrameHeader`: `h.id = Uint32(buf[0:]) >> 1; h.length = Uint16(buf[4:]);
h.flags = Uint16(buf[6:])`. -/
def decodeFrameHeader (buf : List Nat) : frameHeader :=
  { id := getUint32 (buf.take 4) >>> 1
    length := getUint16 (buf.drop 4)
    flags := getUint16 (buf.drop 6) }

/-- The length validation performed by `packetReader.nextFrame` (identical in
`frame.go` and `v2/frame.go`): the frame is rejected when
`h.length > uint16(pr.packetSize - frameHeaderSize)`, i.e. accepted when
`length <= (packetSize - 8) mod 2^16`. -/
def nextFrameLengthOk (packetSize length : Nat) : Bool :=
  decide (length ≤ (packetSize - frameHeaderSize) % 65536)

/-- Modelled from the spec: the length bound the spec prescribes for `nextFrame`,
`length <= PacketSize - 16 - 8` (invariant I1, and step 3 of the nextFrame
description). -/
def nextFrameLengthOkSpec (packetSize length : Nat) : Bool :=
  decide (length ≤ maxPayloadSize packetSize)

/-- The `connSettings` struct.  `PacketSize` is a Go int, `MaxTimeout` a
`time.Duration` (an int64 count of nanoseconds); both are modelled as `Int`. -/
structure connSettings where
  PacketSize : Int
  MaxTimeout : Int
deriving DecidableEq

/-- `mergeSettings` from `v3/handshake.go`: take the smaller value of each
setting, then fail if the merged packet size is outside [1220, 32768] or the
merged timeout outside [2 minutes, 2 hours] (in nanoseconds:
[120000000000, 7200000000000]).  The error cases are collapsed to `none`. -/
def mergeSettings (ours theirs : connSettings) : Option connSettings :=
  let merged : connSettings :=
    { PacketSize := if theirs.PacketSize < ours.PacketSize then theirs.PacketSize
                    else ours.PacketSize
      MaxTimeout := if theirs.MaxTimeout < ours.MaxTimeout then theirs.MaxTimeout
                    else ours.MaxTimeout }
  if merged.PacketSize < 1220 then none
  else if 32768 < merged.PacketSize then none
  else if merged.MaxTimeout < 120000000000 then none
  else if 7200000000000 < merged.MaxTimeout then none
  else some merged

/-- Modelled from the spec: merged settings are the componentwise minimum, and
merging fails exactly when the merged `PacketSize` lies outside [1220, 32768]
or the merged `MaxTimeout` lies outside [2 minutes, 2 hours]. -/
def mergeSettingsSpec (ours theirs : connSettings) : Option connSettings :=
  let ps := min ours.PacketSize theirs.PacketSize
  let mt := min ours.MaxTimeout theirs.MaxTimeout
  if 1220 ≤ ps ∧ ps ≤ 32768 ∧ 120000000000 ≤ mt ∧ mt ≤ 7200000000000 then
    some { PacketSize := ps, MaxTimeout := mt }
  else none

/-- `incNonce` from `v3/handshake.go`:
`binary.LittleEndian.PutUint64(nonce, binary.LittleEndian.Uint64(nonce)+1)` —
add 1 modulo 2^64 to the low eight little-endian bytes; bytes 8 to 11 of the
12-byte nonce are untouched. -/
def incNonce (nonce : List Nat) : List Nat :=
  putUint64 ((getUint64 nonce + 1) % 18446744073709551616) ++ nonce.drop 8

/-- The dialing side outbound nonce: the zero value of `seqCipher.ourNonce`
(`initiateHandshake` never modifies `ourNonce`). -/
def dialerOurNonce : List Nat := [0, 0, 0, 0, 0, 0, 0, 0, 0, 0, 0, 0]

/-- The accepting side outbound nonce: `acceptHandshake` runs
`cipher.ourNonce[len(cipher.ourNonce)-1] ^= 0x80` on the zero value, setting
bit 95 (the high bit of the last byte). -/
def acceptorOurNonce : List Nat := [0, 0, 0, 0, 0, 0, 0, 0, 0, 0, 0, 128]

/-- `idLowestStream = 1 << 8`: IDs below this value are reserved. -/
def idLowestStream : Nat := 1 <<< 8

/-- `maxStreams = 1 << 20` from `readLoop` in `v2/mux.go`. -/
def maxStreams : Nat := 1 <<< 20

/-- The possible outcomes of one `readLoop` iteration after `nextFrame`
returns a header: skip a keepalive, kill the mux on a reserved id, route to an
existing stream, ignore a stale non-First frame, kill the mux on the stream
limit, or create a new stream. -/
inductive frameAction where
  | keepalive
  | protocolViolation
  | route
  | ignore
  | limitExceeded
  | create
deriving DecidableEq

/-- The frame-routing decision of `readLoop` in `v2/mux.go`: `numStreams` is
`len(m.streams)` and `known` is whether `m.streams[h.id]` is present.  The
stream-limit branch fires only when `len(m.streams) > maxStreams`. -/
def routeFrame (numStreams : Nat) (known : Bool) (h : frameHeader) : frameAction :=
  if h.id = 0 then frameAction.keepalive
  else if h.id < idLowestStream then frameAction.protocolViolation
  else if known then frameAction.route
  else if h.flags &&& 1 = 0 then frameAction.ignore
  else if maxStreams < numStreams then frameAction.limitExceeded
  else frameAction.create

/-- `DialStream` assigns `m.nextID` as the stream id, then advances the counter:
`m.nextID += 2` (in uint32 arithmetic) and, when the counter reaches
`math.MaxUint32 >> 2`, wraps it to `idLowestStream + m.nextID & 1`, preserving
the parity bit.  Returns (assigned id, new counter). -/
def dialStep (nextID : Nat) : Nat × Nat :=
  let n1 := (nextID + 2) % 4294967296
  (nextID, if 4294967295 >>> 2 ≤ n1 then idLowestStream + (n1 &&& 1) else n1)

/-- The counter value after `k` calls to `DialStream`, starting from `init`
(`newMux` sets `nextID = idLowestStream`; `Accept` then increments it by one).
The id assigned by call `k+1` is `nextIDAfter init k`. -/
def nextIDAfter (init : Nat) : Nat → Nat
  | 0 => init
  | k + 1 => (dialStep (nextIDAfter init k)).2

/-- The operations of `v2/mux.go` that touch the length of the mux-global
`writeBuf`: a non-covert `bufferFrame` append of a payload of the given
length, and the keepalive insertion, padding, and flush of `writeLoop`.
The claims under verification only concern `len(writeBuf)`, so the buffer is
modelled by its length. -/
inductive muxOp where
  | bufferFrame (payloadLen : Nat)
  | keepalive
  | pad
  | flush

/-- One `writeBuf` length transition.  `bufferFrame` appends
`frameHeaderSize + payloadLen` bytes only when
`len(writeBuf) + frameHeaderSize + len(payload) <= 10 * maxPayloadSize`
(otherwise the caller keeps blocking: no change).  `writeLoop` inserts an
8-byte keepalive frame only into an empty buffer, pads a non-multiple up to
the next multiple of `maxFrameSize`, and truncates the buffer to zero after
encrypting. -/
def stepWriteBuf (packetSize bufLen : Nat) : muxOp → Nat
  | muxOp.bufferFrame p =>
      if bufLen + frameHeaderSize + p ≤ 10 * maxPayloadSize packetSize then
        bufLen + frameHeaderSize + p
      else bufLen
  | muxOp.keepalive => if bufLen = 0 then frameHeaderSize else bufLen
  | muxOp.pad =>
      if bufLen % maxFrameSize packetSize = 0 then bufLen
      else bufLen + (maxFrameSize packetSize - bufLen % maxFrameSize packetSize)
  | muxOp.flush => 0

/-- The `writeBuf` length after running a sequence of operations on a fresh
mux (`newMux` starts with an empty buffer). -/
def runWriteBuf (packetSize : Nat) (ops : List muxOp) : Nat :=
  List.foldl (stepWriteBuf packetSize) 0 ops

/-- The error values that flow through the modelled fragment of `v2/mux.go`:
`os.ErrDeadlineExceeded`, `ErrPeerClosedStream`, `io.EOF`, and everything
else (identified by a numeric code). -/
inductive goError where
  | deadlineExceeded
  | peerClosedStream
  | eofError
  | other (code : Nat)
deriving DecidableEq

/-- `bufferFrame` from `v2/mux.go` (non-covert path), as observed at its
decision points: it fails immediately with `os.ErrDeadlineExceeded` when a
deadline is set and already expired on entry; after the wait loop it fails
with the sticky mux error when that is set, or with `os.ErrDeadlineExceeded`
when the deadline has meanwhile expired; otherwise it appends the frame
(`appendFrame`: encoded header, then payload) to `writeBuf` and returns no
error.  Returns (error, resulting writeBuf). -/
def bufferFrame (muxErr : Option goError) (deadlineSet expiredAtEntry expiredAfterWait : Bool)
    (writeBuf : List Nat) (h : frameHeader) (payload : List Nat) :
    Option goError × List Nat :=
  if deadlineSet && expiredAtEntry then (some goError.deadlineExceeded, writeBuf)
  else
    match muxErr with
    | some e => (some e, writeBuf)
    | none =>
        if deadlineSet && expiredAfterWait then (some goError.deadlineExceeded, writeBuf)
        else (none, writeBuf ++ encodeFrameHeader h ++ payload)

/-- The fields of the `Stream` struct that `Stream.Read` consults: whether the
first frame was sent, the sticky terminal error, the buffered payload, and the
read deadline (`rdSet`: `!s.rd.IsZero()`; `rdExpired`: `!time.Now().Before(s.rd)`). -/
structure streamState where
  established : Bool
  err : Option goError
  readBuf : List Nat
  rdSet : Bool
  rdExpired : Bool
deriving DecidableEq

/-- `Stream.Read` from `v2/mux.go`.  `none` models the panic on a
newly-dialed, never-written stream.  Otherwise, in source order: an expired
read deadline returns `(0, os.ErrDeadlineExceeded)`; a sticky terminal error
returns `(0, io.EOF)` when it is `ErrPeerClosedStream` and `(0, err)`
otherwise; else `min pLen len(readBuf)` bytes are copied out and `readBuf`
advances.  Returns ((bytes read, error), resulting stream state). -/
def streamRead (s : streamState) (pLen : Nat) :
    Option ((Nat × Option goError) × streamState) :=
  if s.established = false then none
  else if s.rdSet && s.rdExpired then some ((0, some goError.deadlineExceeded), s)
  else
    match s.err with
    | some e =>
        if e = goError.peerClosedStream then some ((0, some goError.eofError), s)
        else some ((0, some e), s)
    | none =>
        if s.rdSet && s.rdExpired then some ((0, some goError.deadlineExceeded), s)
        else
          let n := min pLen s.readBuf.length
          some ((n, none), { s with readBuf := s.readBuf.drop n })

/-- Bitwise-or with 1 on an even number is addition of 1. -/
theorem even_lor_one (x : Nat) (h : x % 2 = 0) : x ||| 1 = x + 1 := by
  have hb : ∀ i, (x ||| 1).testBit i = (x + 1).testBit i := by
    intro i
    rw [Nat.testBit_or]
    cases i with
    | zero => simp [Nat.testBit_zero]; omega
    | succ j =>
      have h2 : (x + 1) / 2 = x / 2 := by omega
      simp [Nat.testBit_succ, h2, Nat.zero_testBit]
  exact Nat.eq_of_testBit_eq hb

/-- Bitwise-or with 1 leaves an odd number unchanged. -/
theorem odd_lor_one (x : Nat) (h : x % 2 = 1) : x ||| 1 = x := by
  have hb : ∀ i, (x ||| 1).testBit i = x.testBit i := by
    intro i
    rw [Nat.testBit_or]
    cases i with
    | zero => simp [Nat.testBit_zero, h]
    | succ j => simp [Nat.testBit_succ, Nat.zero_testBit]
  exact Nat.eq_of_testBit_eq hb

/-- Bitwise-or with 1 always produces an odd number. -/
theorem lor_one_mod_two (x : Nat) : (x ||| 1) % 2 = 1 := by
  rcases Nat.even_or_odd x with he | ho
  · have h0 := Nat.even_iff.mp he
    rw [even_lor_one x h0]
    omega
  · rw [odd_lor_one x (Nat.odd_iff.mp ho)]
    exact Nat.odd_iff.mp ho

/-- Claim C1 (code_bug evidence): the `nextFrame` length check of `frame.go`
and `v2/frame.go` accepts against the bound `packetSize - 8`, not the
spec-prescribed `PacketSize - 16 - 8`.  At packet size 1220 a header whose
length field is 1210 passes the source check even though the maximum payload
that fits in one packet is `maxPayloadSize 1220 = 1196`; the subsequent
`io.ReadFull(pr, buf[:h.length])` then indexes the `maxPayloadSize`-byte
scratch buffer of `readLoop` out of range. -/
theorem nextFrame_lengthCheck_bug :
    nextFrameLengthOk 1220 1210 = true ∧
    nextFrameLengthOkSpec 1220 1210 = false ∧
    maxPayloadSize 1220 = 1196 := by
  refine ⟨by decide, by decide, by decide⟩

/-- Claim C2: `mergeSettings` takes the componentwise minimum of the two
settings and fails exactly when the merged `PacketSize` lies outside
[1220, 32768] or the merged `MaxTimeout` lies outside [2 minutes, 2 hours];
stated as equality with the definition transcribed from the spec. -/
theorem mergeSettings_eq_spec :
    ∀ ours theirs, mergeSettings ours theirs = mergeSettingsSpec ours theirs := by
  intro o t
  simp only [mergeSettings, mergeSettingsSpec, min_def]
  split_ifs <;> first | rfl | (exfalso; omega)

/-- Claim C6: frame-header encoding and decoding are mutually inverse for
every header with `id < 2^31` (and uint16 length and flags): decoding the
eight encoded bytes returns the same id, length and flags; the encoding is
little-endian with the id stored as `(id << 1) | 1`; and the low bit of the
first encoded byte is 1. -/
theorem frameHeader_roundTrip (h : frameHeader)
    (hid : h.id < 2147483648) (hlen : h.length < 65536) (hflags : h.flags < 65536) :
    decodeFrameHeader (encodeFrameHeader h) = h ∧
    encodeFrameHeader h = putUint32 (2 * h.id + 1) ++ putUint16 h.length ++ putUint16 h.flags ∧
    (encodeFrameHeader h).headD 0 % 2 = 1 := by
  obtain ⟨i, l, f⟩ := h
  simp only at hid hlen hflags
  have hv : (i <<< 1) % 4294967296 ||| 1 = 2 * i + 1 := by
    rw [Nat.shiftLeft_eq]
    have h1 : i * 2 ^ 1 % 4294967296 = 2 * i := by omega
    rw [h1]
    exact even_lor_one (2 * i) (by omega)
  have henc : encodeFrameHeader (frameHeader.mk i l f) =
      putUint32 (2 * i + 1) ++ putUint16 l ++ putUint16 f := by
    simp only [encodeFrameHeader, hv]
    have h2 : l % 65536 = l := by omega
    have h3 : f % 65536 = f := by omega
    rw [h2, h3]
  have hlit : putUint32 (2 * i + 1) ++ putUint16 l ++ putUint16 f =
      [(2 * i + 1) % 256, (2 * i + 1) / 256 % 256, (2 * i + 1) / 65536 % 256,
       (2 * i + 1) / 16777216 % 256, l % 256, l / 256 % 256, f % 256, f / 256 % 256] := rfl
  refine ⟨?_, henc, ?_⟩
  · rw [henc, hlit]
    have hdec : decodeFrameHeader
        [(2 * i + 1) % 256, (2 * i + 1) / 256 % 256, (2 * i + 1) / 65536 % 256,
         (2 * i + 1) / 16777216 % 256, l % 256, l / 256 % 256, f % 256, f / 256 % 256] =
        frameHeader.mk
          (((2 * i + 1) % 256 + 256 * ((2 * i + 1) / 256 % 256) +
            65536 * ((2 * i + 1) / 65536 % 256) +
            16777216 * ((2 * i + 1) / 16777216 % 256)) >>> 1)
          (l % 256 + 256 * (l / 256 % 256))
          (f % 256 + 256 * (f / 256 % 256)) := rfl
    rw [hdec]
    simp only [frameHeader.mk.injEq]
    refine ⟨?_, by omega, by omega⟩
    rw [Nat.shiftRight_eq_div_pow]
    omega
  · rw [henc, hlit]
    simp only [List.headD_cons]
    omega

/-- Rounding a length up to the next multiple of the frame size stays below
ten frame sizes, provided the starting length does. -/
theorem pad_le_ten (mfs len : Nat) (h0 : 0 < mfs) (hlen : len ≤ 10 * mfs)
    (hr : len % mfs ≠ 0) : len + (mfs - len % mfs) ≤ 10 * mfs := by
  have hmod := Nat.div_add_mod len mfs
  have hrlt := Nat.mod_lt len h0
  have hq : len / mfs < 10 := by
    by_contra hq10
    push_neg at hq10
    have h1 : mfs * 10 ≤ mfs * (len / mfs) := Nat.mul_le_mul_left mfs hq10
    omega
  have h2 : mfs * (len / mfs + 1) ≤ mfs * 10 := Nat.mul_le_mul_left mfs (by omega)
  have h3 : mfs * (len / mfs + 1) = mfs * (len / mfs) + mfs := by ring
  omega

/-- Every single `writeBuf` operation preserves the bound `10 * maxFrameSize`. -/
theorem stepWriteBuf_le (ps : Nat) (hps : 1220 ≤ ps) (len : Nat)
    (hlen : len ≤ 10 * maxFrameSize ps) (op : muxOp) :
    stepWriteBuf ps len op ≤ 10 * maxFrameSize ps := by
  have hA : maxFrameSize ps = ps - 16 := rfl
  have hB : maxPayloadSize ps = ps - 16 - 8 := rfl
  have hF : frameHeaderSize = 8 := rfl
  cases op with
  | bufferFrame p =>
    simp only [stepWriteBuf]
    split_ifs with hg
    · omega
    · exact hlen
  | keepalive =>
    simp only [stepWriteBuf]
    split_ifs
    · omega
    · exact hlen
  | pad =>
    simp only [stepWriteBuf]
    split_ifs with hz
    · exact hlen
    · exact pad_le_ten (maxFrameSize ps) len (by omega) hlen hz
  | flush =>
    simp only [stepWriteBuf]
    omega

/-- The `writeBuf` bound is an inductive invariant of operation sequences. -/
theorem foldl_writeBuf_le (ps : Nat) (hps : 1220 ≤ ps) :
    ∀ (ops : List muxOp) (len : Nat), len ≤ 10 * maxFrameSize ps →
      List.foldl (stepWriteBuf ps) len ops ≤ 10 * maxFrameSize ps := by
  intro ops
  induction ops with
  | nil => intro len hl; simpa using hl
  | cons op rest ih =>
    intro len hl
    rw [List.foldl_cons]
    exact ih _ (stepWriteBuf_le ps hps len hl op)

/-- Claim C3 counterexample: the claim that every operation keeps
`len(writeBuf) <= 10 * maxPayload` is false.  At packet size 1220, ten
gate-respecting `bufferFrame` appends of 1188-byte payloads fill the buffer
to exactly `10 * maxPayloadSize 1220 = 11960` bytes, and the padding step of
`writeLoop` then rounds it up to 12040 bytes, exceeding the claimed bound. -/
theorem writeBuf_pad_exceeds_bound :
    runWriteBuf 1220 (List.replicate 10 (muxOp.bufferFrame 1188) ++ [muxOp.pad]) = 12040 ∧
    10 * maxPayloadSize 1220 = 11960 ∧
    (runWriteBuf 1220 (List.replicate 10 (muxOp.bufferFrame 1188) ++ [muxOp.pad]) ≤
      10 * maxPayloadSize 1220) = False :=
  ⟨by decide, by decide, eq_false (by decide)⟩

/-- Claim C3 (amended): the mux-global `writeBuf` never exceeds
`10 * maxFrameSize` bytes (which is `10 * maxPayload + 80`, the capacity
`newMux` allocates); the `bufferFrame` gate guarantees that an append leaves
the buffer no larger than `10 * maxPayload` (blocking, i.e. leaving the
buffer unchanged, whenever the frame would not fit under that bound), and the
keepalive insertion of `writeLoop` does the same; only the padding step of
`writeLoop` may push the length above `10 * maxPayload`, and never above
`10 * maxFrameSize`. -/
theorem writeBuf_bounded (ps : Nat) (hps : 1220 ≤ ps) :
    (∀ ops, runWriteBuf ps ops ≤ 10 * maxFrameSize ps) ∧
    (∀ len p, stepWriteBuf ps len (muxOp.bufferFrame p) ≤ max len (10 * maxPayloadSize ps)) ∧
    (∀ len, stepWriteBuf ps len muxOp.keepalive ≤ max len (10 * maxPayloadSize ps)) := by
  refine ⟨fun ops => foldl_writeBuf_le ps hps ops 0 (by omega), ?_, ?_⟩
  · intro len p
    simp only [stepWriteBuf]
    split_ifs with hg
    · exact le_max_of_le_right hg
    · exact le_max_left _ _
  · intro len
    have hB : maxPayloadSize ps = ps - 16 - 8 := rfl
    have hF : frameHeaderSize = 8 := rfl
    simp only [stepWriteBuf]
    split_ifs
    · exact le_max_of_le_right (by omega)
    · exact le_max_left _ _

/-- Witness for the amended C3 bound at packet size 1220. -/
theorem writeBuf_bounded_witness :
    1220 ≤ 1220 ∧
    runWriteBuf 1220 [muxOp.bufferFrame 100, muxOp.pad] ≤ 10 * maxFrameSize 1220 :=
  ⟨by decide, (writeBuf_bounded 1220 (by decide)).1 [muxOp.bufferFrame 100, muxOp.pad]⟩

/-- Claim C4 counterexample: with exactly 2^20 = 1048576 streams in the
table, a First-flagged frame with the unknown id 256 creates a new stream
instead of producing the stream-limit error, because the source condition is
`len(m.streams) > maxStreams`, strictly greater. -/
theorem streamLimit_at_exactly_2pow20 :
    routeFrame 1048576 false (frameHeader.mk 256 0 1) = frameAction.create ∧
    (routeFrame 1048576 false (frameHeader.mk 256 0 1) = frameAction.limitExceeded) = False :=
  ⟨by decide, eq_false (by decide)⟩

/-- Claim C4 (amended): when the read loop receives a First-flagged frame
whose id is not in the stream table and the table already holds strictly more
than 2^20 streams, the mux takes the StreamLimitExceeded exit (so the read
loop terminates and no stream is created). -/
theorem streamLimit_exceeded (count : Nat) (known : Bool) (h : frameHeader)
    (hk : known = false) (hid : idLowestStream ≤ h.id) (hf : h.flags &&& 1 ≠ 0)
    (hc : maxStreams < count) :
    routeFrame count known h = frameAction.limitExceeded := by
  have h256 : idLowestStream = 256 := rfl
  unfold routeFrame
  rw [if_neg (by omega : ¬ h.id = 0), if_neg (by omega : ¬ h.id < idLowestStream), hk,
    if_neg Bool.false_ne_true, if_neg hf, if_pos hc]

/-- Witness for the amended C4 at 2^20 + 1 streams. -/
theorem streamLimit_exceeded_witness :
    idLowestStream ≤ 256 ∧ (1 &&& 1 ≠ 0) ∧ maxStreams < 1048577 ∧
    routeFrame 1048577 false (frameHeader.mk 256 5 1) = frameAction.limitExceeded :=
  ⟨by decide, by decide, by decide,
    streamLimit_exceeded 1048577 false (frameHeader.mk 256 5 1) rfl (by decide) (by decide)
      (by decide)⟩

/-- The stream-id counter invariant: starting from an initial value in
[256, 1073741823) the counter stays in that range and keeps its parity. -/
theorem nextIDAfter_inv (init : Nat) (h1 : 256 ≤ init) (h2 : init < 1073741823) :
    ∀ k, 256 ≤ nextIDAfter init k ∧ nextIDAfter init k < 1073741823 ∧
      nextIDAfter init k % 2 = init % 2 := by
  intro k
  induction k with
  | zero => exact ⟨h1, h2, rfl⟩
  | succ j ih =>
    obtain ⟨ha, hb, hc⟩ := ih
    have hstep : nextIDAfter init (j + 1) = (dialStep (nextIDAfter init j)).2 := rfl
    rw [hstep]
    set n := nextIDAfter init j with hn
    simp only [dialStep]
    have hmod : (n + 2) % 4294967296 = n + 2 := Nat.mod_eq_of_lt (by omega)
    have hshift : (4294967295 : Nat) >>> 2 = 1073741823 := by decide
    have hand : (n + 2) &&& 1 = (n + 2) % 2 := Nat.and_one_is_mod (n + 2)
    have hlow : idLowestStream = 256 := rfl
    rw [hmod, hshift, hand, hlow]
    split_ifs with hw
    · exact ⟨by omega, by omega, by omega⟩
    · exact ⟨by omega, by omega, by omega⟩

/-- Claim C5: stream ids assigned by `DialStream` are always at least 256
(never in the reserved region), even on the dialing side (counter starts at
`idLowestStream = 256`) and odd on the accepting side (`Accept` increments
the fresh counter once, to 257); the counter advances by 2 per call, and on
reaching the overflow bound `MaxUint32 >> 2` (just below 2^30) it wraps to
`256 + parity`, preserving the parity bit. -/
theorem dialStream_ids (k : Nat) :
    idLowestStream + 1 = 257 ∧
    (idLowestStream ≤ nextIDAfter idLowestStream k ∧
      nextIDAfter idLowestStream k % 2 = 0 ∧ nextIDAfter idLowestStream k < 1073741823) ∧
    (idLowestStream ≤ nextIDAfter 257 k ∧
      nextIDAfter 257 k % 2 = 1 ∧ nextIDAfter 257 k < 1073741823) ∧
    ∀ n, 256 ≤ n → n < 1073741823 →
      (dialStep n).1 = n ∧
      (dialStep n).2 = if 1073741823 ≤ n + 2 then 256 + n % 2 else n + 2 := by
  have hlow : idLowestStream = 256 := rfl
  have hd := nextIDAfter_inv 256 (by omega) (by omega) k
  have ha := nextIDAfter_inv 257 (by omega) (by omega) k
  simp only [hlow]
  refine ⟨by trivial, ⟨hd.1, by omega, hd.2.1⟩, ⟨ha.1, by omega, ha.2.1⟩, ?_⟩
  intro n hn1 hn2
  refine ⟨rfl, ?_⟩
  simp only [dialStep]
  have hmod : (n + 2) % 4294967296 = n + 2 := Nat.mod_eq_of_lt (by omega)
  have hshift : (4294967295 : Nat) >>> 2 = 1073741823 := by decide
  have hand : (n + 2) &&& 1 = (n + 2) % 2 := Nat.and_one_is_mod (n + 2)
  rw [hmod, hshift, hand, hlow]
  split_ifs
  · omega
  · rfl

/-- Witness for C5, exercising the wrap characterization at a concrete
counter value. -/
theorem dialStream_ids_witness :
    256 ≤ 1073741821 ∧ 1073741821 < 1073741823 ∧
    (dialStep 1073741821).1 = 1073741821 ∧
    (dialStep 1073741821).2 =
      if 1073741823 ≤ 1073741821 + 2 then 256 + 1073741821 % 2 else 1073741821 + 2 :=
  ⟨by decide, by decide,
    (dialStream_ids 0).2.2.2 1073741821 (by decide) (by decide)⟩

/-- `incNonce` leaves the high four bytes of the nonce untouched. -/
theorem incNonce_drop8 (nonce : List Nat) : (incNonce nonce).drop 8 = nonce.drop 8 := rfl

/-- Iterating `incNonce` leaves the high four bytes of the nonce untouched. -/
theorem drop8_iterate (nonce : List Nat) (m : Nat) :
    (incNonce^[m] nonce).drop 8 = nonce.drop 8 := by
  induction m with
  | zero => rfl
  | succ j ih => rw [Function.iterate_succ_apply', incNonce_drop8, ih]

/-- Recombining the eight little-endian bytes written by `putUint64` recovers
the value. -/
theorem getUint64_putUint64 (w : Nat) (rest : List Nat)
    (hw : w < 18446744073709551616) : getUint64 (putUint64 w ++ rest) = w := by
  have h : getUint64 (putUint64 w ++ rest) =
      w % 256 + 256 * (w / 256 % 256) + 65536 * (w / 65536 % 256) +
        16777216 * (w / 16777216 % 256) + 4294967296 * (w / 4294967296 % 256) +
        1099511627776 * (w / 1099511627776 % 256) +
        281474976710656 * (w / 281474976710656 % 256) +
        72057594037927936 * (w / 72057594037927936 % 256) := rfl
  rw [h]
  omega

/-- Claim C7: the two outbound nonce sequences are disjoint.  `incNonce` adds
1 modulo 2^64 to the little-endian low eight bytes and leaves the high four
bytes, including the partition bit 95, unchanged; therefore the dialer
sequence (starting from the all-zero nonce) never meets the acceptor
sequence (starting from the nonce with only bit 95 set), for any numbers of
increments. -/
theorem nonce_sequences_disjoint :
    (∀ nonce, (incNonce nonce).drop 8 = nonce.drop 8) ∧
    (∀ nonce, getUint64 (incNonce nonce) = (getUint64 nonce + 1) % 18446744073709551616) ∧
    (∀ m n : Nat, (incNonce^[m] dialerOurNonce = incNonce^[n] acceptorOurNonce) = False) := by
  refine ⟨incNonce_drop8,
    fun nonce => getUint64_putUint64 _ _ (Nat.mod_lt _ (by decide)),
    fun m n => eq_false fun heq => ?_⟩
  have h1 := drop8_iterate dialerOurNonce m
  have h2 := drop8_iterate acceptorOurNonce n
  rw [heq, h2] at h1
  exact absurd h1 (by decide)

/-- Claim C8: `bufferFrame` is atomic on failure.  Whenever it returns an
error, that error is `os.ErrDeadlineExceeded` or the sticky mux error, and
`writeBuf` is returned exactly as it was; the frame (encoded header then
payload) is appended exactly when the returned error is `none`. -/
theorem bufferFrame_atomic (me : Option goError) (ds ee ew : Bool) (buf : List Nat)
    (h : frameHeader) (p : List Nat) :
    ((bufferFrame me ds ee ew buf h p).1 = none →
      (bufferFrame me ds ee ew buf h p).2 = buf ++ encodeFrameHeader h ++ p) ∧
    (∀ e, (bufferFrame me ds ee ew buf h p).1 = some e →
      (bufferFrame me ds ee ew buf h p).2 = buf ∧
      (e = goError.deadlineExceeded ∨ me = some e)) := by
  cases ds <;> cases ee <;> cases ew <;> rcases me with _ | e0 <;>
    simp [bufferFrame]

/-- Witness for C8: a sticky mux error is returned verbatim, with the buffer
untouched. -/
theorem bufferFrame_atomic_witness :
    (bufferFrame (some (goError.other 3)) false false false [7] (frameHeader.mk 256 1 0)
        [9]).2 = [7] ∧
    (goError.other 3 = goError.deadlineExceeded ∨
      some (goError.other 3) = some (goError.other 3)) :=
  (bufferFrame_atomic (some (goError.other 3)) false false false [7]
    (frameHeader.mk 256 1 0) [9]).2 (goError.other 3) (by decide)

/-- Claim C9: when `Stream.Read` observes a terminal stream error (the stream
is established and the read deadline has not fired), it maps the error at the
public interface: `ErrPeerClosedStream` becomes `(0, io.EOF)`, every other
error is returned unchanged as `(0, err)`. -/
theorem streamRead_error_mapping (s : streamState) (pLen : Nat) (e : goError)
    (hest : s.established = true) (hrd : (s.rdSet && s.rdExpired) = false)
    (herr : s.err = some e) :
    streamRead s pLen =
      some ((0, some (if e = goError.peerClosedStream then goError.eofError else e)), s) := by
  simp only [streamRead, hest, hrd, herr]
  split_ifs <;> simp_all

/-- Witness for C9: a peer-closed stream surfaces as EOF. -/
theorem streamRead_error_mapping_witness :
    streamRead (streamState.mk true (some goError.peerClosedStream) [1, 2] false false) 4 =
      some ((0, some goError.eofError),
        streamState.mk true (some goError.peerClosedStream) [1, 2] false false) := by
  simpa using streamRead_error_mapping
    (streamState.mk true (some goError.peerClosedStream) [1, 2] false false) 4
    goError.peerClosedStream rfl rfl rfl

/-- Claim C10: terminal errors take precedence over buffered data.  Whenever
the terminal error of an established stream is set, `Stream.Read` returns
zero bytes together with some error and leaves the stream state (including
`readBuf`) unchanged, whatever `readBuf` contains; buffered bytes are never
delivered once the error is set. -/
theorem streamRead_error_precedence (s : streamState) (pLen : Nat) (e : goError)
    (hest : s.established = true) (herr : s.err = some e) :
    ∃ e2, streamRead s pLen = some ((0, some e2), s) := by
  by_cases hrd : (s.rdSet && s.rdExpired) = true
  · exact ⟨goError.deadlineExceeded, by simp [streamRead, hest, hrd]⟩
  · have hrd2 : (s.rdSet && s.rdExpired) = false := by
      revert hrd
      cases s.rdSet && s.rdExpired <;> simp
    by_cases hpc : e = goError.peerClosedStream
    · exact ⟨goError.eofError, by simp [streamRead, hest, hrd2, herr, hpc]⟩
    · exact ⟨e, by simp [streamRead, hest, hrd2, herr, hpc]⟩

/-- Witness for C10: an errored stream with a non-empty read buffer returns
zero bytes and an error, leaving the buffer undelivered. -/
theorem streamRead_error_precedence_witness :
    ∃ e2, streamRead (streamState.mk true (some (goError.other 7)) [1, 2, 3] false false) 2 =
      some ((0, some e2),
        streamState.mk true (some (goError.other 7)) [1, 2, 3] false false) :=
  streamRead_error_precedence
    (streamState.mk true (some (goError.other 7)) [1, 2, 3] false false) 2
    (goError.other 7) rfl rfl

/-- Witness for C6 at a concrete header. -/
theorem frameHeader_roundTrip_witness :
    decodeFrameHeader (encodeFrameHeader (frameHeader.mk 300 17 5)) = frameHeader.mk 300 17 5 ∧
    encodeFrameHeader (frameHeader.mk 300 17 5) =
      putUint32 (2 * 300 + 1) ++ putUint16 17 ++ putUint16 5 ∧
    (encodeFrameHeader (frameHeader.mk 300 17 5)).headD 0 % 2 = 1 :=
  frameHeader_roundTrip (frameHeader.mk 300 17 5) (by decide) (by decide) (by decide)
